import Mathlib

/-!
Verification of the Gravity Bridge orchestrator's Cosmos-side send module
(`orchestrator/cosmos_gravity/src/send.rs`).

The module is embedded shallowly:
* protobuf message bodies become Lean structures mirroring the fields the
  source populates;
* the external message dispatcher (`Contact::send_message`) becomes a function
  argument `send_message : List Msg → Except CosmosGrpcError TxResponse`
  (memo / fee / timeout / signing-key arguments of the dispatcher do not
  influence message construction and are elided);
* the external balance-snapshot provider and governance queries become
  `Except`-valued arguments holding the value the corresponding `await?`
  would have produced;
* Rust `u64` / `Uint256` values are modelled as `Nat` (no arithmetic in this
  module can overflow `u64` semantics is never exercised: nonces and heights
  are only compared and stored);
* `HashMap` becomes an association list with the operations used by the
  source (`get`, `insert`-with-collision-check, key iteration); since the
  source sorts the keys before use, the nondeterministic iteration order of
  the Rust `HashMap` is irrelevant to every result proved here;
* a Rust `assert!` failure (process abort) is a distinguished `panicked`
  outcome, separate from recoverable `Err` results.
-/

namespace GravitySend

open List

/-- A Cosmos coin: denomination plus integer amount (`deep_space::Coin`). -/
structure Coin where
  denom : String
  amount : Nat
deriving DecidableEq, Repr

/-- An ERC20 token balance entry (`gravity_proto::gravity::Erc20Token`). -/
structure Erc20Token where
  contract : String
  amount : Nat
deriving DecidableEq, Repr

/-- The five Ethereum event variants fed to `send_ethereum_claims`. -/
inductive EventVariant
  | sendToCosmos
  | transactionBatchExecuted
  | erc20Deployed
  | logicCallExecuted
  | valsetUpdated
deriving DecidableEq, Repr

/-- An observed Ethereum event.  The source is generic over the
`EthereumEvent` trait (defined in the `gravity_utils` crate, outside `src/`);
the trait surface used by `send.rs` is `get_event_nonce`, `get_block_height`
and `to_claim_msg`, so an event is modelled as a nonce, a block height, a
variant tag and an opaque variant-specific payload. -/
structure EthEvent where
  event_nonce : Nat
  block_height : Nat
  variant : EventVariant
  payload : String
deriving DecidableEq, Repr

/-- A validator set artifact (`gravity_utils::types::Valset`): its nonce plus
an opaque payload standing for the member list. -/
structure Valset where
  nonce : Nat
  payload : String
deriving DecidableEq, Repr

/-- A transaction batch artifact (`gravity_utils::types::TransactionBatch`). -/
structure TransactionBatch where
  nonce : Nat
  token_contract : String
  payload : String
deriving DecidableEq, Repr

/-- A logic call artifact (`gravity_utils::types::LogicCall`). -/
structure LogicCall where
  invalidation_id : List Nat
  invalidation_nonce : Nat
  payload : String
deriving DecidableEq, Repr

/-- `gravity_proto::gravity::MsgValsetConfirm` as populated by the source. -/
structure MsgValsetConfirm where
  orchestrator : String
  eth_address : String
  nonce : Nat
  signature : String
deriving DecidableEq, Repr

/-- `gravity_proto::gravity::MsgConfirmBatch` as populated by the source. -/
structure MsgConfirmBatch where
  token_contract : String
  orchestrator : String
  eth_signer : String
  nonce : Nat
  signature : String
deriving DecidableEq, Repr

/-- `gravity_proto::gravity::MsgConfirmLogicCall` as populated by the source. -/
structure MsgConfirmLogicCall where
  orchestrator : String
  eth_signer : String
  signature : String
  invalidation_id : String
  invalidation_nonce : Nat
deriving DecidableEq, Repr

/-- `gravity_proto::gravity::MsgSendToEth` as populated by the source. -/
structure MsgSendToEth where
  sender : String
  eth_dest : String
  amount : Coin
  bridge_fee : Coin
  chain_fee : Coin
deriving DecidableEq, Repr

/-- `gravity_proto::gravity::MsgSetOrchestratorAddress`. -/
structure MsgSetOrchestratorAddress where
  validator : String
  orchestrator : String
  eth_address : String
deriving DecidableEq, Repr

/-- `gravity_proto::gravity::MsgRequestBatch`. -/
structure MsgRequestBatch where
  sender : String
  denom : String
deriving DecidableEq, Repr

/-- `gravity_proto::gravity::MsgSubmitBadSignatureEvidence`; the `Any`-encoded
subject is opaque and modelled as a string. -/
structure MsgSubmitBadSignatureEvidence where
  subject : String
  signature : String
  sender : String
deriving DecidableEq, Repr

/-- `gravity_proto::gravity::MsgCancelSendToEth`. -/
structure MsgCancelSendToEth where
  transaction_id : Nat
  sender : String
deriving DecidableEq, Repr

/-- `gravity_proto::gravity::MsgExecuteIbcAutoForwards`. -/
structure MsgExecuteIbcAutoForwards where
  forwards_to_clear : Nat
  executor : String
deriving DecidableEq, Repr

/-- Modelled from the spec: the body of a Claim Message.  `to_claim_msg` is
implemented per variant in the `gravity_utils` crate (not in `src/`); per the
spec a Claim Message carries the orchestrator's destination-chain address,
the event's variant-specific fields, and the attached (possibly empty)
balance list, tagged with the source event's `event_nonce`. -/
structure ClaimMsgBody where
  variant : EventVariant
  event_nonce : Nat
  block_height : Nat
  payload : String
  orchestrator : String
  bridge_balances : List Erc20Token
deriving DecidableEq, Repr

/-- The body of a constructed destination-chain message. -/
inductive MsgBody
  | claim (c : ClaimMsgBody)
  | valsetConfirm (m : MsgValsetConfirm)
  | confirmBatch (m : MsgConfirmBatch)
  | confirmLogicCall (m : MsgConfirmLogicCall)
  | sendToEth (m : MsgSendToEth)
  | setOrchestratorAddress (m : MsgSetOrchestratorAddress)
  | requestBatch (m : MsgRequestBatch)
  | submitBadSignatureEvidence (m : MsgSubmitBadSignatureEvidence)
  | cancelSendToEth (m : MsgCancelSendToEth)
  | executeIbcAutoForwards (m : MsgExecuteIbcAutoForwards)
deriving DecidableEq, Repr

/-- `deep_space::Msg::new(type_url, body)`. -/
structure Msg where
  type_url : String
  body : MsgBody
deriving DecidableEq, Repr

/-- A destination-chain transaction response (opaque to this module). -/
structure TxResponse where
  txhash : String
deriving DecidableEq, Repr

/-- `web30::jsonrpc::error::Web3Error` (only the constructor used here). -/
inductive Web3Error
  | BadResponse (s : String)
deriving DecidableEq, Repr

/-- `deep_space::error::CosmosGrpcError` (constructors relevant here:
`BadInput` plus an opaque stand-in for every other failure kind). -/
inductive CosmosGrpcError
  | BadInput (s : String)
  | NetworkError (s : String)
deriving DecidableEq, Repr

/-- `gravity_utils::error::GravityError` (the constructors used here). -/
inductive GravityError
  | EthereumRestError (e : Web3Error)
  | CosmosGrpcError (e : CosmosGrpcError)
deriving DecidableEq, Repr

-- gravity msg type urls (constants from the source)
def MSG_SET_ORCHESTRATOR_ADDRESS_TYPE_URL : String := "/gravity.v1.MsgSetOrchestratorAddress"
def MSG_VALSET_CONFIRM_TYPE_URL : String := "/gravity.v1.MsgValsetConfirm"
def MSG_CONFIRM_BATCH_TYPE_URL : String := "/gravity.v1.MsgConfirmBatch"
def MSG_CONFIRM_LOGIC_CALL_TYPE_URL : String := "/gravity.v1.MsgConfirmLogicCall"
def MSG_SEND_TO_ETH_TYPE_URL : String := "/gravity.v1.MsgSendToEth"
def MSG_REQUEST_BATCH_TYPE_URL : String := "/gravity.v1.MsgRequestBatch"
def MSG_SUBMIT_BAD_SIGNATURE_EVIDENCE_TYPE_URL : String := "/gravity.v1.MsgSubmitBadSignatureEvidence"
def MSG_CANCEL_SEND_TO_ETH_TYPE_URL : String := "/gravity.v1.MsgCancelSendToEth"
def MSG_EXECUTE_IBC_AUTO_FORWARDS_TYPE_URL : String := "/gravity.v1.MsgExecuteIbcAutoForwards"

/-- One hex digit (lower case), for the hex encoding below. -/
def hexDigit (n : Nat) : Char :=
  if n < 10 then Char.ofNat (48 + n) else Char.ofNat (87 + n)

/-- Modelled from the spec: `deep_space::utils::bytes_to_hex_str` (external
utility, not in `src/`): the hex encoding of a byte string. -/
def bytes_to_hex_str (bytes : List Nat) : String :=
  String.mk (bytes.foldr (fun b acc => hexDigit ((b / 16) % 16) :: hexDigit (b % 16) :: acc) [])

/-- Modelled from the spec: the wire type url of the claim message for each
event variant (chosen inside `to_claim_msg`, implemented in the
`gravity_utils` crate, not in `src/`). -/
def claim_type_url : EventVariant → String
  | .sendToCosmos => "/gravity.v1.MsgSendToCosmosClaim"
  | .transactionBatchExecuted => "/gravity.v1.MsgBatchSendToEthClaim"
  | .erc20Deployed => "/gravity.v1.MsgERC20DeployedClaim"
  | .logicCallExecuted => "/gravity.v1.MsgLogicCallExecutedClaim"
  | .valsetUpdated => "/gravity.v1.MsgValsetUpdatedClaim"

/-- Modelled from the spec: `EthereumEvent::to_claim_msg` (implemented in the
`gravity_utils` crate, not in `src/`).  Per the spec, it produces the Claim
Message for one event, carrying the orchestrator address, the event's fields
and the supplied balance list. -/
def EthEvent.to_claim_msg (event : EthEvent) (orchestrator : String)
    (bridge_balances : List Erc20Token) : Msg :=
  Msg.mk (claim_type_url event.variant)
    (MsgBody.claim
      { variant := event.variant
        event_nonce := event.event_nonce
        block_height := event.block_height
        payload := event.payload
        orchestrator := orchestrator
        bridge_balances := bridge_balances })

/-- The event nonce a claim message is tagged with (0 for non-claim bodies,
which never occur in assembled claim lists). -/
def claim_nonce (m : Msg) : Nat :=
  match m.body with
  | .claim c => c.event_nonce
  | _ => 0

/-- `HashMap::get` on the association-list model. -/
def hashmap_get {β : Type} : List (Nat × β) → Nat → Option β
  | [], _ => none
  | (k, v) :: rest, key => if k = key then some v else hashmap_get rest key

/-- `create_claim_msgs` (send.rs:367).  Iterates over the events; with no
snapshot required every event yields a claim with an empty balance list; with
a snapshot, an event's `block_height` is looked up and the event is skipped
when the height is absent. -/
def create_claim_msgs (eth_balances_by_block_height : Option (List (Nat × List Erc20Token)))
    (events : List EthEvent) (orchestrator : String) : List (Nat × Msg) :=
  match events with
  | [] => []
  | event :: rest =>
    let eth_balances : Option (List Erc20Token) :=
      match eth_balances_by_block_height with
      | none => some []
      | some snapshot => hashmap_get snapshot event.block_height
    match eth_balances with
    | some eth_bals =>
      (event.event_nonce, event.to_claim_msg orchestrator eth_bals) ::
        create_claim_msgs eth_balances_by_block_height rest orchestrator
    | none => create_claim_msgs eth_balances_by_block_height rest orchestrator

/-- The `assert!(unordered_msgs.insert(nonce, msg).is_none())` loop of
`send_ethereum_claims` (send.rs:317-325): insert each (nonce, msg) pair into
the map, returning `none` (process abort) on the first key collision. -/
def insert_claims : List (Nat × Msg) → List (Nat × Msg) → Option (List (Nat × Msg))
  | unordered_msgs, [] => some unordered_msgs
  | unordered_msgs, (nonce, msg) :: rest =>
    if (hashmap_get unordered_msgs nonce).isSome then none
    else insert_claims ((nonce, msg) :: unordered_msgs) rest

/-- `keys.sort_unstable()` (send.rs:341): sorts ascending.  Sorting a list of
naturals ascending has a unique result, so any correct sorting algorithm
models the Rust unstable sort; insertion sort is used for its structural
recursion. -/
def sort_unstable (keys : List Nat) : List Nat :=
  List.insertionSort (fun a b => a ≤ b) keys

def MAX_ORACLE_MESSAGES : Nat := 1000

/-- The `while msgs.len() > MAX_ORACLE_MESSAGES { msgs.pop(); }` loop
(send.rs:351-354): popping from the end until the length is within the cap
keeps exactly the first `MAX_ORACLE_MESSAGES` elements. -/
def truncate_msgs (msgs : List Msg) : List Msg :=
  msgs.take MAX_ORACLE_MESSAGES

/-- The concatenation of the five per-variant `create_claim_msgs` results, in
the order the source chains them (send.rs:291-323). -/
def all_claim_pairs (eth_balances_by_block_height : Option (List (Nat × List Erc20Token)))
    (deposits withdraws erc20_deploys logic_calls valsets : List EthEvent)
    (our_cosmos_address : String) : List (Nat × Msg) :=
  create_claim_msgs eth_balances_by_block_height deposits our_cosmos_address ++
    create_claim_msgs eth_balances_by_block_height withdraws our_cosmos_address ++
    create_claim_msgs eth_balances_by_block_height erc20_deploys our_cosmos_address ++
    create_claim_msgs eth_balances_by_block_height logic_calls our_cosmos_address ++
    create_claim_msgs eth_balances_by_block_height valsets our_cosmos_address

/-- The possible outcomes of the claim-assembly part of
`send_ethereum_claims`, before the dispatcher is (possibly) invoked. -/
inductive ClaimsPlan
  | panicked
  | failed (e : GravityError)
  | noClaims
  | submit (msgs : List Msg)
deriving DecidableEq, Repr

/-- The assembly phase of `send_ethereum_claims` (send.rs:230-354).

`monitored_erc20s` holds what `get_gravity_monitored_erc20s(...)` (in
`crate::utils`, outside `src/`; per the spec, the governance-configured
monitored-token set) produced; `collected_balances` holds what
`collect_eth_balances_for_claims(...)` (the external Balance Snapshot
Provider) produced, and is consulted only when the monitored set is
non-empty, exactly as in the source. -/
def claims_plan
    (monitored_erc20s : Except GravityError (List String))
    (collected_balances : Except GravityError (List (Nat × List Erc20Token)))
    (deposits withdraws erc20_deploys logic_calls valsets : List EthEvent)
    (our_cosmos_address : String) : ClaimsPlan :=
  match monitored_erc20s with
  | .error e => .failed e
  | .ok monitored =>
    let must_monitor_erc20s := !monitored.isEmpty
    -- send.rs:251-268: fetch the snapshot only when monitoring is required
    let fetched : Except GravityError (Option (List (Nat × List Erc20Token))) :=
      if must_monitor_erc20s then collected_balances.map some else .ok none
    match fetched with
    | .error e => .failed e
    | .ok eth_balances_by_block_height =>
      -- send.rs:271-278: error if monitoring is required but nothing was collected
      if must_monitor_erc20s &&
          (eth_balances_by_block_height.isNone ||
            (eth_balances_by_block_height.getD []).isEmpty) then
        .failed (.EthereumRestError (.BadResponse
          ("Could not obtain historical Gravity.sol Eth balances to report in claims")))
      else
        let pairs := all_claim_pairs eth_balances_by_block_height deposits withdraws
          erc20_deploys logic_calls valsets our_cosmos_address
        match insert_claims [] pairs with
        | none => .panicked
        | some unordered_msgs =>
          if unordered_msgs.isEmpty then .noClaims
          else
            let keys := sort_unstable (unordered_msgs.map Prod.fst)
            -- send.rs:345-348: play the messages back in sorted nonce order
            let msgs := keys.filterMap (fun key => hashmap_get unordered_msgs key)
            .submit (truncate_msgs msgs)

/-- The outcome of a full `send_ethereum_claims` call:
`Result<Option<TxResponse>, GravityError>` plus the distinguished process
abort of a failed `assert!`. -/
inductive SendClaimsOutcome
  | panicked
  | failed (e : GravityError)
  | succeeded (r : Option TxResponse)
deriving DecidableEq, Repr

/-- `send_ethereum_claims` (send.rs:230-361): run the assembly phase, then
dispatch the assembled list (if any) and wrap the dispatcher's result. -/
def send_ethereum_claims
    (monitored_erc20s : Except GravityError (List String))
    (collected_balances : Except GravityError (List (Nat × List Erc20Token)))
    (deposits withdraws erc20_deploys logic_calls valsets : List EthEvent)
    (our_cosmos_address : String)
    (send_message : List Msg → Except CosmosGrpcError TxResponse) : SendClaimsOutcome :=
  match claims_plan monitored_erc20s collected_balances deposits withdraws erc20_deploys
      logic_calls valsets our_cosmos_address with
  | .panicked => .panicked
  | .failed e => .failed e
  | .noClaims => .succeeded none
  | .submit msgs =>
    match send_message msgs with
    | .ok r => .succeeded (some r)
    | .error e => .failed (.CosmosGrpcError e)

/-- The message-building loop of `send_valset_confirms` (send.rs:104-123):
for each valset, sign its canonical encoding (`encode_valset_confirm` lives in
the `ethereum_gravity` crate and `sign_ethereum_msg` is the opaque signing
primitive; both are taken as function arguments) and build a
`MsgValsetConfirm`. -/
def valset_confirm_messages
    (encode_valset_confirm : String → Valset → List Nat)
    (sign_ethereum_msg : List Nat → List Nat)
    (our_address : String) (our_eth_address : String) (gravity_id : String) :
    List Valset → List Msg
  | [] => []
  | valset :: rest =>
    let message := encode_valset_confirm gravity_id valset
    let eth_signature := sign_ethereum_msg message
    let confirm : MsgValsetConfirm :=
      { orchestrator := our_address
        eth_address := our_eth_address
        nonce := valset.nonce
        signature := bytes_to_hex_str eth_signature }
    Msg.mk MSG_VALSET_CONFIRM_TYPE_URL (MsgBody.valsetConfirm confirm) ::
      valset_confirm_messages encode_valset_confirm sign_ethereum_msg our_address
        our_eth_address gravity_id rest

/-- `send_valset_confirms` (send.rs:93-135): build all confirmation messages,
then submit them in one dispatch call, returning its result. -/
def send_valset_confirms
    (encode_valset_confirm : String → Valset → List Nat)
    (sign_ethereum_msg : List Nat → List Nat)
    (our_address : String) (our_eth_address : String)
    (valsets : List Valset) (gravity_id : String)
    (send_message : List Msg → Except CosmosGrpcError TxResponse) :
    Except CosmosGrpcError TxResponse :=
  send_message (valset_confirm_messages encode_valset_confirm sign_ethereum_msg
    our_address our_eth_address gravity_id valsets)

/-- The message-building loop of `send_batch_confirm` (send.rs:149-169). -/
def batch_confirm_messages
    (encode_tx_batch_confirm : String → TransactionBatch → List Nat)
    (sign_ethereum_msg : List Nat → List Nat)
    (our_address : String) (our_eth_address : String) (gravity_id : String) :
    List TransactionBatch → List Msg
  | [] => []
  | batch :: rest =>
    let message := encode_tx_batch_confirm gravity_id batch
    let eth_signature := sign_ethereum_msg message
    let confirm : MsgConfirmBatch :=
      { token_contract := batch.token_contract
        orchestrator := our_address
        eth_signer := our_eth_address
        nonce := batch.nonce
        signature := bytes_to_hex_str eth_signature }
    Msg.mk MSG_CONFIRM_BATCH_TYPE_URL (MsgBody.confirmBatch confirm) ::
      batch_confirm_messages encode_tx_batch_confirm sign_ethereum_msg our_address
        our_eth_address gravity_id rest

/-- `send_batch_confirm` (send.rs:138-179). -/
def send_batch_confirm
    (encode_tx_batch_confirm : String → TransactionBatch → List Nat)
    (sign_ethereum_msg : List Nat → List Nat)
    (our_address : String) (our_eth_address : String)
    (transaction_batches : List TransactionBatch) (gravity_id : String)
    (send_message : List Msg → Except CosmosGrpcError TxResponse) :
    Except CosmosGrpcError TxResponse :=
  send_message (batch_confirm_messages encode_tx_batch_confirm sign_ethereum_msg
    our_address our_eth_address gravity_id transaction_batches)

/-- The message-building loop of `send_logic_call_confirm` (send.rs:193-213). -/
def logic_call_confirm_messages
    (encode_logic_call_confirm : String → LogicCall → List Nat)
    (sign_ethereum_msg : List Nat → List Nat)
    (our_address : String) (our_eth_address : String) (gravity_id : String) :
    List LogicCall → List Msg
  | [] => []
  | call :: rest =>
    let message := encode_logic_call_confirm gravity_id call
    let eth_signature := sign_ethereum_msg message
    let confirm : MsgConfirmLogicCall :=
      { orchestrator := our_address
        eth_signer := our_eth_address
        signature := bytes_to_hex_str eth_signature
        invalidation_id := bytes_to_hex_str call.invalidation_id
        invalidation_nonce := call.invalidation_nonce }
    Msg.mk MSG_CONFIRM_LOGIC_CALL_TYPE_URL (MsgBody.confirmLogicCall confirm) ::
      logic_call_confirm_messages encode_logic_call_confirm sign_ethereum_msg our_address
        our_eth_address gravity_id rest

/-- `send_logic_call_confirm` (send.rs:182-223). -/
def send_logic_call_confirm
    (encode_logic_call_confirm : String → LogicCall → List Nat)
    (sign_ethereum_msg : List Nat → List Nat)
    (our_address : String) (our_eth_address : String)
    (logic_calls : List LogicCall) (gravity_id : String)
    (send_message : List Msg → Except CosmosGrpcError TxResponse) :
    Except CosmosGrpcError TxResponse :=
  send_message (logic_call_confirm_messages encode_logic_call_confirm sign_ethereum_msg
    our_address our_eth_address gravity_id logic_calls)

/-- The balance-scanning loop of `send_to_eth` (send.rs:441-453), carrying the
`found` flag: error out on a matching denomination with insufficient balance,
otherwise record that the denomination was found. -/
def scan_balances (amount : Coin) (fee : Coin) :
    List Coin → Bool → Except CosmosGrpcError Bool
  | [], found => .ok found
  | balance :: rest, found =>
    if balance.denom = amount.denom then
      if balance.amount < amount.amount + fee.amount * 2 then
        .error (.BadInput
          ("Insufficient balance of " ++ amount.denom ++ " to send " ++
            toString (amount.amount + fee.amount * 2)))
      else scan_balances amount fee rest true
    else scan_balances amount fee rest found

/-- `send_to_eth` (send.rs:409-483).  `get_reasonable_send_to_eth_fee` is an
external fee-recommendation query (in `crate::utils`, outside `src/`) and is
taken as a function argument; `balances` holds what
`contact.get_balances(our_address)` returned. -/
def send_to_eth
    (our_address : String) (destination : String)
    (amount : Coin) (bridge_fee : Coin) (chain_fee : Option Coin) (fee : Coin)
    (get_reasonable_send_to_eth_fee : Nat → Nat)
    (balances : List Coin)
    (send_message : List Msg → Except CosmosGrpcError TxResponse) :
    Except CosmosGrpcError TxResponse :=
  if amount.denom ≠ bridge_fee.denom then
    .error (.BadInput
      (amount.denom ++ " " ++ bridge_fee.denom ++
        " is an invalid denom set for SendToEth you must pay ethereum fees in the same token your sending"))
  else
    let chain_fee : Coin :=
      match chain_fee with
      | some f => f
      | none =>
        { amount := get_reasonable_send_to_eth_fee amount.amount
          denom := amount.denom }
    if amount.denom ≠ chain_fee.denom then
      .error (.BadInput
        (amount.denom ++ " " ++ chain_fee.denom ++
          " is an invalid denom set for SendToEth you must pay chain fees in the same token your sending"))
    else
      match scan_balances amount fee balances false with
      | .error e => .error e
      | .ok found =>
        if !found then
          .error (.BadInput ("No balance of " ++ amount.denom ++ " to send"))
        else
          let msg_send_to_eth : MsgSendToEth :=
            { sender := our_address
              eth_dest := destination
              amount := amount
              bridge_fee := bridge_fee
              chain_fee := chain_fee }
          send_message [Msg.mk MSG_SEND_TO_ETH_TYPE_URL (MsgBody.sendToEth msg_send_to_eth)]

/-- `set_gravity_delegate_addresses` (send.rs:54-88).  The validator operator
address is derived from the signing key's address by re-encoding it with the
`valoper` bech32 human-readable part; key-address derivation and bech32
re-encoding are external (`deep_space`) and taken as arguments. -/
def set_gravity_delegate_addresses
    (chain_hrp : String) (key_address : String)
    (to_bech32 : String → String → String)
    (delegate_eth_address : String) (delegate_cosmos_address : String)
    (send_message : List Msg → Except CosmosGrpcError TxResponse) :
    Except CosmosGrpcError TxResponse :=
  let our_valoper_address := to_bech32 key_address (chain_hrp ++ "valoper")
  let msg_set_orch_address : MsgSetOrchestratorAddress :=
    { validator := our_valoper_address
      orchestrator := delegate_cosmos_address
      eth_address := delegate_eth_address }
  send_message
    [Msg.mk MSG_SET_ORCHESTRATOR_ADDRESS_TYPE_URL
      (MsgBody.setOrchestratorAddress msg_set_orch_address)]

/-- `send_request_batch` (send.rs:485-512). -/
def send_request_batch
    (our_address : String) (denom : String)
    (send_message : List Msg → Except CosmosGrpcError TxResponse) :
    Except CosmosGrpcError TxResponse :=
  let msg_request_batch : MsgRequestBatch :=
    { sender := our_address
      denom := denom }
  send_message [Msg.mk MSG_REQUEST_BATCH_TYPE_URL (MsgBody.requestBatch msg_request_batch)]

/-- `submit_bad_signature_evidence` (send.rs:516-546).  The `Any`-encoding of
the signed object (`signed_object.to_any()`, external) is taken as an opaque
string argument. -/
def submit_bad_signature_evidence
    (our_address : String) (signed_object_any : String) (signature : List Nat)
    (send_message : List Msg → Except CosmosGrpcError TxResponse) :
    Except CosmosGrpcError TxResponse :=
  let msg_submit_bad_signature_evidence : MsgSubmitBadSignatureEvidence :=
    { subject := signed_object_any
      signature := bytes_to_hex_str signature
      sender := our_address }
  send_message
    [Msg.mk MSG_SUBMIT_BAD_SIGNATURE_EVIDENCE_TYPE_URL
      (MsgBody.submitBadSignatureEvidence msg_submit_bad_signature_evidence)]

/-- `cancel_send_to_eth` (send.rs:550-573). -/
def cancel_send_to_eth
    (our_address : String) (transaction_id : Nat)
    (send_message : List Msg → Except CosmosGrpcError TxResponse) :
    Except CosmosGrpcError TxResponse :=
  let msg_cancel_send_to_eth : MsgCancelSendToEth :=
    { transaction_id := transaction_id
      sender := our_address }
  send_message
    [Msg.mk MSG_CANCEL_SEND_TO_ETH_TYPE_URL (MsgBody.cancelSendToEth msg_cancel_send_to_eth)]

/-- `execute_pending_ibc_auto_forwards` (send.rs:576-601): dispatch one
message; on error propagate it, on success discard the response and return
unit. -/
def execute_pending_ibc_auto_forwards
    (cosmos_addr : String) (forwards_to_clear : Nat)
    (send_message : List Msg → Except CosmosGrpcError TxResponse) :
    Except CosmosGrpcError Unit :=
  let res := send_message
    [Msg.mk MSG_EXECUTE_IBC_AUTO_FORWARDS_TYPE_URL
      (MsgBody.executeIbcAutoForwards
        { forwards_to_clear := forwards_to_clear
          executor := cosmos_addr })]
  match res with
  | .error e => .error e
  | .ok _ => .ok ()

/-! ### Helper lemmas about the hashmap model -/

theorem hashmap_get_isSome {β : Type} (m : List (Nat × β)) (key : Nat) :
    (hashmap_get m key).isSome = true ↔ key ∈ m.map Prod.fst := by
  induction m with
  | nil => simp [hashmap_get]
  | cons p rest ih =>
    obtain ⟨k, v⟩ := p
    by_cases hk : k = key
    · subst hk
      simp [hashmap_get]
    · simp [hashmap_get, hk, ih, Ne.symm hk]

theorem hashmap_get_mem {β : Type} (m : List (Nat × β)) (key : Nat) (v : β)
    (h : hashmap_get m key = some v) : (key, v) ∈ m := by
  induction m with
  | nil => simp [hashmap_get] at h
  | cons p rest ih =>
    obtain ⟨k, w⟩ := p
    by_cases hk : k = key
    · subst hk
      have h' : some w = some v := by simpa [hashmap_get] using h
      cases h'
      exact List.mem_cons_self _ _
    · simp only [hashmap_get, if_neg hk] at h
      exact List.mem_cons_of_mem _ (ih h)

theorem hashmap_get_of_mem_nodup {β : Type} (m : List (Nat × β))
    (hnd : (m.map Prod.fst).Nodup) {key : Nat} {v : β}
    (hmem : (key, v) ∈ m) : hashmap_get m key = some v := by
  induction m with
  | nil => simp at hmem
  | cons p rest ih =>
    obtain ⟨k, w⟩ := p
    simp only [List.map_cons, List.nodup_cons] at hnd
    rcases List.mem_cons.mp hmem with h1 | h2
    · cases h1
      simp [hashmap_get]
    · have hk : k ≠ key := by
        intro hkey
        subst hkey
        exact hnd.1 (List.mem_map_of_mem Prod.fst h2)
      simp [hashmap_get, hk, ih hnd.2 h2]

/-! ### Helper lemmas about the insertion loop -/

theorem insert_claims_some (pairs : List (Nat × Msg)) :
    ∀ acc r, insert_claims acc pairs = some r → r = pairs.reverse ++ acc := by
  induction pairs with
  | nil =>
    intro acc r h
    simp only [insert_claims, Option.some.injEq] at h
    simp [h.symm]
  | cons p rest ih =>
    intro acc r h
    obtain ⟨nonce, msg⟩ := p
    by_cases hmem : (hashmap_get acc nonce).isSome = true
    · simp [insert_claims, hmem] at h
    · simp only [insert_claims, hmem, Bool.false_eq_true, if_false] at h
      have := ih ((nonce, msg) :: acc) r h
      simp [this, List.append_assoc]

theorem insert_claims_none_iff (pairs : List (Nat × Msg)) :
    ∀ acc : List (Nat × Msg), (acc.map Prod.fst).Nodup →
      (insert_claims acc pairs = none ↔
        ¬(acc.map Prod.fst ++ pairs.map Prod.fst).Nodup) := by
  induction pairs with
  | nil =>
    intro acc hacc
    simp [insert_claims, hacc]
  | cons p rest ih =>
    intro acc hacc
    obtain ⟨nonce, msg⟩ := p
    by_cases hmem : (hashmap_get acc nonce).isSome = true
    · rw [hashmap_get_isSome] at hmem
      constructor
      · intro _ hnd
        rw [List.nodup_append] at hnd
        exact hnd.2.2 hmem (List.mem_cons_self _ _)
      · intro _
        simp [insert_claims, hashmap_get_isSome, hmem]
    · have hnotmem : nonce ∉ acc.map Prod.fst := by
        rw [← hashmap_get_isSome]
        simpa using hmem
      have hstep : insert_claims acc ((nonce, msg) :: rest) =
          insert_claims ((nonce, msg) :: acc) rest := by
        simp [insert_claims, hmem]
      have hacc' : (((nonce, msg) :: acc).map Prod.fst).Nodup := by
        simp [List.nodup_cons, hnotmem, hacc]
      rw [hstep, ih _ hacc']
      have hperm : ((nonce, msg) :: acc).map Prod.fst ++ rest.map Prod.fst ~
          acc.map Prod.fst ++ ((nonce, msg) :: rest).map Prod.fst := by
        simpa using List.perm_middle.symm
      rw [hperm.nodup_iff]

theorem insert_claims_result (pairs um : List (Nat × Msg))
    (h : insert_claims [] pairs = some um) :
    um = pairs.reverse ∧ (um.map Prod.fst).Nodup := by
  have hrev := insert_claims_some pairs [] um h
  rw [List.append_nil] at hrev
  have hnodup : (pairs.map Prod.fst).Nodup := by
    by_contra hnd
    have hnone := (insert_claims_none_iff pairs [] (by simp)).mpr (by simpa using hnd)
    rw [hnone] at h
    exact Option.noConfusion h
  refine ⟨hrev, ?_⟩
  rw [hrev, List.map_reverse]
  exact List.nodup_reverse.mpr hnodup

theorem insert_claims_of_nodup (pairs : List (Nat × Msg))
    (h : (pairs.map Prod.fst).Nodup) :
    insert_claims [] pairs = some pairs.reverse := by
  cases hres : insert_claims [] pairs with
  | none =>
    rw [insert_claims_none_iff pairs [] (by simp)] at hres
    simp [h] at hres
  | some um =>
    rw [(insert_claims_result pairs um hres).1]

/-! ### Helper lemmas about claim construction -/

theorem create_claim_msgs_none (events : List EthEvent) (orch : String) :
    create_claim_msgs none events orch =
      events.map (fun e => (e.event_nonce, e.to_claim_msg orch [])) := by
  induction events with
  | nil => rfl
  | cons e rest ih => simp [create_claim_msgs, ih]

theorem create_claim_msgs_some (snapshot : List (Nat × List Erc20Token))
    (events : List EthEvent) (orch : String) :
    create_claim_msgs (some snapshot) events orch =
      events.filterMap (fun e =>
        (hashmap_get snapshot e.block_height).map
          (fun bals => (e.event_nonce, e.to_claim_msg orch bals))) := by
  induction events with
  | nil => rfl
  | cons e rest ih =>
    cases hb : hashmap_get snapshot e.block_height with
    | none => simp [create_claim_msgs, hb, ih, List.filterMap_cons]
    | some bals => simp [create_claim_msgs, hb, ih, List.filterMap_cons]

theorem create_claim_msgs_keys_sublist
    (ebbh : Option (List (Nat × List Erc20Token))) (events : List EthEvent) (orch : String) :
    (create_claim_msgs ebbh events orch).map Prod.fst <+
      events.map EthEvent.event_nonce := by
  induction events with
  | nil => simp [create_claim_msgs]
  | cons e rest ih =>
    cases ebbh with
    | none =>
      simpa [create_claim_msgs] using ih.cons₂ e.event_nonce
    | some snapshot =>
      cases hb : hashmap_get snapshot e.block_height with
      | none =>
        simpa [create_claim_msgs, hb] using ih.cons e.event_nonce
      | some bals =>
        simpa [create_claim_msgs, hb] using ih.cons₂ e.event_nonce

theorem create_claim_msgs_nonce_inv
    (ebbh : Option (List (Nat × List Erc20Token))) (events : List EthEvent) (orch : String) :
    ∀ p ∈ create_claim_msgs ebbh events orch, claim_nonce p.2 = p.1 := by
  induction events with
  | nil => simp [create_claim_msgs]
  | cons e rest ih =>
    cases ebbh with
    | none =>
      intro p hp
      simp only [create_claim_msgs, List.mem_cons] at hp
      rcases hp with h | h
      · subst h; rfl
      · exact ih p h
    | some snapshot =>
      cases hb : hashmap_get snapshot e.block_height with
      | none =>
        intro p hp
        simp only [create_claim_msgs, hb] at hp
        exact ih p hp
      | some bals =>
        intro p hp
        simp only [create_claim_msgs, hb, List.mem_cons] at hp
        rcases hp with h | h
        · subst h; rfl
        · exact ih p h

theorem all_claim_pairs_nonce_inv
    (ebbh : Option (List (Nat × List Erc20Token)))
    (deposits withdraws erc20_deploys logic_calls valsets : List EthEvent) (orch : String) :
    ∀ p ∈ all_claim_pairs ebbh deposits withdraws erc20_deploys logic_calls valsets orch,
      claim_nonce p.2 = p.1 := by
  intro p hp
  simp only [all_claim_pairs, List.mem_append] at hp
  rcases hp with ((((h | h) | h) | h) | h) <;>
    exact create_claim_msgs_nonce_inv _ _ _ p h

theorem all_claim_pairs_keys_sublist
    (ebbh : Option (List (Nat × List Erc20Token)))
    (deposits withdraws erc20_deploys logic_calls valsets : List EthEvent) (orch : String) :
    (all_claim_pairs ebbh deposits withdraws erc20_deploys logic_calls valsets orch).map
        Prod.fst <+
      (deposits ++ withdraws ++ erc20_deploys ++ logic_calls ++ valsets).map
        EthEvent.event_nonce := by
  simp only [all_claim_pairs, List.map_append]
  exact ((((create_claim_msgs_keys_sublist ebbh deposits orch).append
    (create_claim_msgs_keys_sublist ebbh withdraws orch)).append
    (create_claim_msgs_keys_sublist ebbh erc20_deploys orch)).append
    (create_claim_msgs_keys_sublist ebbh logic_calls orch)).append
    (create_claim_msgs_keys_sublist ebbh valsets orch)

/-! ### Helper lemmas about sorting and playback -/

theorem sort_unstable_sorted (l : List Nat) :
    List.Sorted (fun a b => a ≤ b) (sort_unstable l) :=
  List.sorted_insertionSort (fun a b => a ≤ b) l

theorem sort_unstable_perm (l : List Nat) : sort_unstable l ~ l :=
  List.perm_insertionSort (fun a b => a ≤ b) l

theorem filterMap_map_eq_self {α β : Type} (l : List α) (f : α → Option β) (g : β → α)
    (h : ∀ x ∈ l, ∃ v, f x = some v ∧ g v = x) :
    (l.filterMap f).map g = l := by
  induction l with
  | nil => rfl
  | cons a rest ih =>
    obtain ⟨v, hfa, hgv⟩ := h a (List.mem_cons_self a rest)
    rw [List.filterMap_cons, hfa]
    simp [hgv, ih (fun x hx => h x (List.mem_cons_of_mem a hx))]

theorem filterMap_eq_map_of_forall {α β : Type} (l : List α) (f : α → Option β) (g : α → β)
    (h : ∀ x ∈ l, f x = some (g x)) : l.filterMap f = l.map g := by
  induction l with
  | nil => rfl
  | cons a rest ih =>
    rw [List.filterMap_cons, h a (List.mem_cons_self a rest)]
    simp [ih (fun x hx => h x (List.mem_cons_of_mem a hx))]

/-- The central ordering fact: playing the messages of a nonce-keyed map with
distinct keys back in sorted key order, then truncating, yields a message
list whose claim nonces are strictly increasing at every adjacent pair. -/
theorem assembled_msgs_nonce_chain (um : List (Nat × Msg))
    (hnd : (um.map Prod.fst).Nodup)
    (hinv : ∀ p ∈ um, claim_nonce p.2 = p.1) :
    List.Chain' (fun a b => a < b)
      ((truncate_msgs ((sort_unstable (um.map Prod.fst)).filterMap
        (fun key => hashmap_get um key))).map claim_nonce) := by
  have hperm : sort_unstable (um.map Prod.fst) ~ um.map Prod.fst := sort_unstable_perm _
  have hknd : (sort_unstable (um.map Prod.fst)).Nodup := hperm.nodup_iff.mpr hnd
  have hsorted_lt : List.Sorted (fun a b => a < b) (sort_unstable (um.map Prod.fst)) :=
    List.Sorted.lt_of_le (sort_unstable_sorted _) hknd
  have hres : ∀ k ∈ sort_unstable (um.map Prod.fst),
      ∃ v, hashmap_get um k = some v ∧ claim_nonce v = k := by
    intro k hk
    have hk' : k ∈ um.map Prod.fst := hperm.mem_iff.mp hk
    obtain ⟨p, hpmem, hpfst⟩ := List.mem_map.mp hk'
    obtain ⟨k', v⟩ := p
    cases hpfst
    exact ⟨v, hashmap_get_of_mem_nodup um hnd hpmem, hinv (k', v) hpmem⟩
  have hmapeq : (((sort_unstable (um.map Prod.fst)).filterMap
      (fun key => hashmap_get um key)).map claim_nonce) = sort_unstable (um.map Prod.fst) :=
    filterMap_map_eq_self _ _ _ hres
  rw [truncate_msgs, List.map_take, hmapeq]
  exact (List.Pairwise.sublist (List.take_sublist _ _) hsorted_lt).chain'

/-- Inversion for the `.submit` outcome of `claims_plan`: a submitted list is
the truncated, nonce-sorted playback of a successfully built map. -/
theorem claims_plan_submit_inv
    (monitored_erc20s : Except GravityError (List String))
    (collected_balances : Except GravityError (List (Nat × List Erc20Token)))
    (deposits withdraws erc20_deploys logic_calls valsets : List EthEvent)
    (orch : String) (msgs : List Msg)
    (h : claims_plan monitored_erc20s collected_balances deposits withdraws erc20_deploys
      logic_calls valsets orch = .submit msgs) :
    ∃ ebbh unordered_msgs,
      insert_claims [] (all_claim_pairs ebbh deposits withdraws erc20_deploys logic_calls
        valsets orch) = some unordered_msgs ∧
      msgs = truncate_msgs ((sort_unstable (unordered_msgs.map Prod.fst)).filterMap
        (fun key => hashmap_get unordered_msgs key)) := by
  unfold claims_plan at h
  rcases monitored_erc20s with e | monitored
  · simp at h
  · dsimp only at h
    split at h
    · simp at h
    · split at h
      · simp at h
      · split at h
        · simp at h
        · split at h
          · simp at h
          · injection h with h'
            rename_i fetched ebbh hfetch hcond x um hins hempty
            exact ⟨ebbh, um, hins, h'.symm⟩

/-- With an empty monitored-token set, the assembly phase reduces to the
unmonitored path: no snapshot is consulted and no precondition error can
arise.  (Both sides are definitionally equal once the monitored set is the
empty list.) -/
theorem claims_plan_no_monitor
    (collected_balances : Except GravityError (List (Nat × List Erc20Token)))
    (deposits withdraws erc20_deploys logic_calls valsets : List EthEvent) (orch : String) :
    claims_plan (.ok []) collected_balances deposits withdraws erc20_deploys logic_calls
        valsets orch =
      match insert_claims [] (all_claim_pairs none deposits withdraws erc20_deploys
          logic_calls valsets orch) with
      | none => .panicked
      | some unordered_msgs =>
        if unordered_msgs.isEmpty then .noClaims
        else .submit (truncate_msgs ((sort_unstable (unordered_msgs.map Prod.fst)).filterMap
          (fun key => hashmap_get unordered_msgs key))) := rfl

/-- `claims_plan_no_monitor`, specialised to a successful insertion. -/
theorem claims_plan_no_monitor_insert
    (collected_balances : Except GravityError (List (Nat × List Erc20Token)))
    (deposits withdraws erc20_deploys logic_calls valsets : List EthEvent) (orch : String)
    (um : List (Nat × Msg))
    (h : insert_claims [] (all_claim_pairs none deposits withdraws erc20_deploys
      logic_calls valsets orch) = some um) :
    claims_plan (.ok []) collected_balances deposits withdraws erc20_deploys logic_calls
        valsets orch =
      if um.isEmpty then .noClaims
      else .submit (truncate_msgs ((sort_unstable (um.map Prod.fst)).filterMap
        (fun key => hashmap_get um key))) := by
  rw [claims_plan_no_monitor, h]

/-- C1: for every input event set and snapshot, the message list that
`send_ethereum_claims` passes to the dispatcher (the `.submit` list computed
by its assembly phase `claims_plan`) is strictly ascending by `event_nonce`:
for all adjacent pairs in the output, `event_nonce[i] < event_nonce[i+1]`.
The ascending-nonce sort is the only ordering applied: the list is exactly
the sorted-key playback of the nonce-keyed map (see `claims_plan`). -/
theorem C1_claims_output_strictly_ascending
    (monitored_erc20s : Except GravityError (List String))
    (collected_balances : Except GravityError (List (Nat × List Erc20Token)))
    (deposits withdraws erc20_deploys logic_calls valsets : List EthEvent)
    (orch : String) (msgs : List Msg)
    (h : claims_plan monitored_erc20s collected_balances deposits withdraws erc20_deploys
      logic_calls valsets orch = .submit msgs) :
    List.Chain' (fun a b => a < b) (msgs.map claim_nonce) := by
  obtain ⟨ebbh, um, hins, hmsgs⟩ :=
    claims_plan_submit_inv monitored_erc20s collected_balances deposits withdraws
      erc20_deploys logic_calls valsets orch msgs h
  obtain ⟨hrev, hnd⟩ := insert_claims_result _ _ hins
  have hinv : ∀ p ∈ um, claim_nonce p.2 = p.1 := by
    intro p hp
    apply all_claim_pairs_nonce_inv ebbh deposits withdraws erc20_deploys logic_calls
      valsets orch
    rw [hrev] at hp
    exact List.mem_reverse.mp hp
  rw [hmsgs]
  exact assembled_msgs_nonce_chain um hnd hinv

/-- Witness for C1: a concrete run (one deposit event, nonce 1, no balance
monitoring) whose submitted list satisfies the strict ordering. -/
theorem C1_claims_output_strictly_ascending_witness :
    List.Chain' (fun a b => a < b)
      (([EthEvent.to_claim_msg ⟨1, 7, .sendToCosmos, ("p")⟩ ("orch") []]).map claim_nonce) :=
  C1_claims_output_strictly_ascending (.ok []) (.ok [])
    [⟨1, 7, .sendToCosmos, ("p")⟩] [] [] [] [] ("orch") _ (by decide)

/-- C2: per-event contract of `create_claim_msgs`.  With no snapshot
(`none`), every event yields a claim message with an empty balance list
(always succeeds).  With a snapshot, an event whose `block_height` is present
(even mapped to an empty list) yields a claim message carrying exactly that
balance list, and an event whose height is absent is skipped; the call is a
total function (never fails) and, being a `map`/`filterMap`, produces zero or
one `(event_nonce, Msg)` pair per input event. -/
theorem C2_create_claim_msgs_contract :
    (∀ (events : List EthEvent) (orch : String),
      create_claim_msgs none events orch =
        events.map (fun e => (e.event_nonce, e.to_claim_msg orch []))) ∧
    (∀ (snapshot : List (Nat × List Erc20Token)) (events : List EthEvent) (orch : String),
      create_claim_msgs (some snapshot) events orch =
        events.filterMap (fun e =>
          (hashmap_get snapshot e.block_height).map
            (fun bals => (e.event_nonce, e.to_claim_msg orch bals)))) :=
  ⟨create_claim_msgs_none, create_claim_msgs_some⟩

/-- A deposit event with nonce `i + 1`, for the truncation scenario of the
spec: 1500 candidate claims with nonces 1..1500. -/
def range_deposit_event (i : Nat) : EthEvent :=
  { event_nonce := i + 1
    block_height := 0
    variant := .sendToCosmos
    payload := "" }

set_option maxRecDepth 8000 in
/-- C3: if more than `MAX_ORACLE_MESSAGES` (1000) claim messages survive
assembly, the sorted list is truncated from the high-nonce end, keeping the
lowest nonces: the output of the assembly phase never exceeds 1000 messages,
and for 1500 candidate claims with nonces 1..1500 the submitted list is
exactly the claims with nonces 1..1000. -/
theorem C3_truncation_policy :
    (∀ (monitored_erc20s : Except GravityError (List String))
        (collected_balances : Except GravityError (List (Nat × List Erc20Token)))
        (deposits withdraws erc20_deploys logic_calls valsets : List EthEvent)
        (orch : String) (msgs : List Msg),
      claims_plan monitored_erc20s collected_balances deposits withdraws erc20_deploys
        logic_calls valsets orch = .submit msgs →
      msgs.length ≤ MAX_ORACLE_MESSAGES) ∧
    claims_plan (.ok []) (.ok [])
        ((List.range 1500).map range_deposit_event) [] [] [] [] ("orch") =
      .submit ((List.range 1000).map
        (fun i => (range_deposit_event i).to_claim_msg ("orch") [])) := by
  constructor
  · intro monitored_erc20s collected_balances deposits withdraws erc20_deploys logic_calls
      valsets orch msgs h
    obtain ⟨ebbh, um, hins, hmsgs⟩ :=
      claims_plan_submit_inv monitored_erc20s collected_balances deposits withdraws
        erc20_deploys logic_calls valsets orch msgs h
    rw [hmsgs, truncate_msgs]
    exact List.length_take_le _ _
  · have hpairs : all_claim_pairs none ((List.range 1500).map range_deposit_event)
        [] [] [] [] ("orch") =
        (List.range 1500).map
          (fun i => (i + 1, (range_deposit_event i).to_claim_msg ("orch") [])) := by
      simp only [all_claim_pairs, create_claim_msgs_none, List.map_nil,
        List.append_nil, List.map_map]
      rfl
    have hkeys : ((List.range 1500).map
        (fun i => (i + 1, (range_deposit_event i).to_claim_msg ("orch") []))).map Prod.fst =
        (List.range 1500).map (fun i => i + 1) := by
      rw [List.map_map]
      rfl
    have hnd : (((List.range 1500).map
        (fun i => (i + 1, (range_deposit_event i).to_claim_msg ("orch") []))).map
          Prod.fst).Nodup := by
      rw [hkeys]
      exact List.Nodup.map (fun a b hab => by omega) (List.nodup_range 1500)
    have hins : insert_claims []
        (all_claim_pairs none ((List.range 1500).map range_deposit_event)
          [] [] [] [] ("orch")) =
        some (((List.range 1500).map
          (fun i => (i + 1, (range_deposit_event i).to_claim_msg ("orch") []))).reverse) := by
      rw [hpairs]
      exact insert_claims_of_nodup _ hnd
    rw [claims_plan_no_monitor_insert _ _ _ _ _ _ _ _ hins]
    have hne : (((List.range 1500).map
        (fun i => (i + 1, (range_deposit_event i).to_claim_msg ("orch") []))).reverse).isEmpty =
        false := by
      rw [Bool.eq_false_iff]
      intro habs
      rw [List.isEmpty_iff, List.reverse_eq_nil_iff, List.map_eq_nil_iff,
        List.range_eq_nil] at habs
      exact absurd habs (by omega)
    rw [hne]
    simp only [Bool.false_eq_true, if_false]
    have hsorteq : sort_unstable
        ((((List.range 1500).map
          (fun i => (i + 1, (range_deposit_event i).to_claim_msg ("orch") []))).reverse).map
            Prod.fst) =
        (List.range 1500).map (fun i => i + 1) := by
      rw [List.map_reverse, hkeys]
      refine List.eq_of_perm_of_sorted
        ((sort_unstable_perm _).trans (List.reverse_perm _)) (sort_unstable_sorted _) ?_
      exact (List.sorted_le_range 1500).map (fun i => i + 1) (fun a b hab => by simpa using hab)
    rw [hsorteq]
    have hget : ∀ i ∈ List.range 1500,
        hashmap_get (((List.range 1500).map
          (fun i => (i + 1, (range_deposit_event i).to_claim_msg ("orch") []))).reverse)
          (i + 1) =
        some ((range_deposit_event i).to_claim_msg ("orch") []) := by
      intro i hi
      apply hashmap_get_of_mem_nodup
      · rw [List.map_reverse]
        exact List.nodup_reverse.mpr hnd
      · rw [List.mem_reverse]
        exact List.mem_map_of_mem _ hi
    have hplay : ((List.range 1500).map (fun i => i + 1)).filterMap
        (fun key => hashmap_get (((List.range 1500).map
          (fun i => (i + 1, (range_deposit_event i).to_claim_msg ("orch") []))).reverse) key) =
        (List.range 1500).map (fun i => (range_deposit_event i).to_claim_msg ("orch") []) := by
      rw [List.filterMap_map]
      exact filterMap_eq_map_of_forall _ _ _ hget
    rw [hplay, truncate_msgs, ← List.map_take, List.take_range]
    rfl

/-- Witness for C3: the cap is discharged on a concrete submitted list. -/
theorem C3_truncation_policy_witness :
    ([EthEvent.to_claim_msg ⟨1, 7, .sendToCosmos, ("q")⟩ ("orch") []]).length ≤
      MAX_ORACLE_MESSAGES :=
  C3_truncation_policy.1 (.ok []) (.ok []) [⟨1, 7, .sendToCosmos, ("q")⟩] [] [] [] []
    ("orch") _ (by decide)

/-- Inversion for the `.panicked` outcome of `claims_plan`: a panic can only
come from a key collision in the insertion loop. -/
theorem claims_plan_panicked_inv
    (monitored_erc20s : Except GravityError (List String))
    (collected_balances : Except GravityError (List (Nat × List Erc20Token)))
    (deposits withdraws erc20_deploys logic_calls valsets : List EthEvent)
    (orch : String)
    (h : claims_plan monitored_erc20s collected_balances deposits withdraws erc20_deploys
      logic_calls valsets orch = .panicked) :
    ∃ ebbh, insert_claims [] (all_claim_pairs ebbh deposits withdraws erc20_deploys
      logic_calls valsets orch) = none := by
  unfold claims_plan at h
  rcases monitored_erc20s with e | monitored
  · simp at h
  · dsimp only at h
    split at h
    · simp at h
    · split at h
      · simp at h
      · split at h
        · rename_i fetched ebbh hfetch hcond x hins
          exact ⟨ebbh, hins⟩
        · split at h <;> simp at h

/-- Counterexample to C4 as stated: the deposit and the withdraw both carry
`event_nonce` 5, yet no abort happens, because the withdraw's block height 20
is absent from the required snapshot, so the withdraw is skipped before
insertion and the duplicate never reaches the assertion. -/
theorem C4_counterexample_duplicate_nonce_skipped :
    claims_plan (.ok [("t")]) (.ok [(10, [])])
        [⟨5, 10, .sendToCosmos, ("a")⟩] [⟨5, 20, .transactionBatchExecuted, ("b")⟩]
        [] [] [] ("orch") ≠ .panicked := by
  decide

/-- C4 (amended): the insertion loop of `send_ethereum_claims` asserts that
every insertion is into a previously absent key — it aborts exactly when the
constructed claim pairs repeat an `event_nonce`; hence two events of any
variants with the same nonce abort the process whenever both produce claim
messages (an event skipped for a missing snapshot height escapes the check),
and under the precondition that all event nonces across all variants are
distinct, the assertion never fires. -/
theorem C4_insertion_assertion :
    (∀ pairs : List (Nat × Msg),
      insert_claims [] pairs = none ↔ ¬(pairs.map Prod.fst).Nodup) ∧
    (∀ (monitored_erc20s : Except GravityError (List String))
        (collected_balances : Except GravityError (List (Nat × List Erc20Token)))
        (deposits withdraws erc20_deploys logic_calls valsets : List EthEvent)
        (orch : String),
      ((deposits ++ withdraws ++ erc20_deploys ++ logic_calls ++ valsets).map
        EthEvent.event_nonce).Nodup →
      claims_plan monitored_erc20s collected_balances deposits withdraws erc20_deploys
        logic_calls valsets orch ≠ .panicked) := by
  constructor
  · intro pairs
    rw [insert_claims_none_iff pairs [] (by simp)]
    simp
  · intro monitored_erc20s collected_balances deposits withdraws erc20_deploys logic_calls
      valsets orch hnd h
    obtain ⟨ebbh, hins⟩ :=
      claims_plan_panicked_inv monitored_erc20s collected_balances deposits withdraws
        erc20_deploys logic_calls valsets orch h
    have hpairs_nd := List.Nodup.sublist
      (all_claim_pairs_keys_sublist ebbh deposits withdraws erc20_deploys logic_calls
        valsets orch) hnd
    rw [insert_claims_none_iff _ [] (by simp)] at hins
    exact hins (by simpa using hpairs_nd)

/-- Witness for C4: the no-abort direction discharged on a concrete
collision-free input. -/
theorem C4_insertion_assertion_witness :
    claims_plan (.ok []) (.ok []) [⟨1, 7, .sendToCosmos, ("w")⟩] [] [] [] [] ("orch")
      ≠ .panicked :=
  C4_insertion_assertion.2 (.ok []) (.ok []) [⟨1, 7, .sendToCosmos, ("w")⟩] [] [] [] []
    ("orch") (by decide)

/-- With a non-empty monitored set and a snapshot provider that returned a
non-empty mapping, the assembly phase reduces to the monitored path. -/
theorem claims_plan_monitored (m : String) (ms : List String)
    (snapshot : List (Nat × List Erc20Token)) (hsnap : snapshot.isEmpty = false)
    (deposits withdraws erc20_deploys logic_calls valsets : List EthEvent) (orch : String) :
    claims_plan (.ok (m :: ms)) (.ok snapshot) deposits withdraws erc20_deploys
        logic_calls valsets orch =
      match insert_claims [] (all_claim_pairs (some snapshot) deposits withdraws
          erc20_deploys logic_calls valsets orch) with
      | none => .panicked
      | some unordered_msgs =>
        if unordered_msgs.isEmpty then .noClaims
        else .submit (truncate_msgs ((sort_unstable (unordered_msgs.map Prod.fst)).filterMap
          (fun key => hashmap_get unordered_msgs key))) := by
  have hsnap' : snapshot ≠ [] := by
    intro habs
    subst habs
    simp at hsnap
  simp [claims_plan, Except.map, hsnap']

/-- With a non-empty monitored set but an empty snapshot mapping, the
assembly phase fails with the balances error. -/
theorem claims_plan_monitored_empty_snapshot (m : String) (ms : List String)
    (deposits withdraws erc20_deploys logic_calls valsets : List EthEvent) (orch : String) :
    claims_plan (.ok (m :: ms)) (.ok []) deposits withdraws erc20_deploys logic_calls
        valsets orch =
      .failed (.EthereumRestError (.BadResponse
        ("Could not obtain historical Gravity.sol Eth balances to report in claims"))) := rfl

/-- C5: if after claim construction the nonce-keyed mapping is empty (all
candidate events were skipped, or there were zero input events),
`send_ethereum_claims` returns the distinct success outcome Ok(None) — not an
empty-list submission and not an error — and performs no dispatch call: the
result is `.succeeded none` uniformly in the dispatcher `send_message`. -/
theorem C5_empty_map_ok_none
    (monitored : List String) (snapshot : List (Nat × List Erc20Token))
    (deposits withdraws erc20_deploys logic_calls valsets : List EthEvent)
    (orch : String)
    (send_message : List Msg → Except CosmosGrpcError TxResponse)
    (hok : monitored = [] ∨ snapshot ≠ [])
    (hempty : all_claim_pairs (if monitored.isEmpty then none else some snapshot)
      deposits withdraws erc20_deploys logic_calls valsets orch = []) :
    send_ethereum_claims (.ok monitored) (.ok snapshot) deposits withdraws erc20_deploys
      logic_calls valsets orch send_message = .succeeded none := by
  have hplan : claims_plan (.ok monitored) (.ok snapshot) deposits withdraws erc20_deploys
      logic_calls valsets orch = .noClaims := by
    cases monitored with
    | nil =>
      rw [claims_plan_no_monitor]
      have hpairs : all_claim_pairs none deposits withdraws erc20_deploys logic_calls
          valsets orch = [] := by simpa using hempty
      rw [hpairs]
      rfl
    | cons m ms =>
      have hsnap : snapshot.isEmpty = false := by
        rcases hok with hmon | hsnap
        · exact absurd hmon (by simp)
        · simpa [List.isEmpty_iff] using hsnap
      rw [claims_plan_monitored m ms snapshot hsnap]
      have hpairs : all_claim_pairs (some snapshot) deposits withdraws erc20_deploys
          logic_calls valsets orch = [] := by simpa using hempty
      rw [hpairs]
      rfl
  unfold send_ethereum_claims
  rw [hplan]

/-- Witness for C5: zero input events yield Ok(None) under a dispatcher that
would happily return a response. -/
theorem C5_empty_map_ok_none_witness :
    send_ethereum_claims (.ok []) (.ok []) [] [] [] [] [] ("orch")
      (fun _ => .ok ⟨("h")⟩) = .succeeded none :=
  C5_empty_map_ok_none [] [] [] [] [] [] [] ("orch") (fun _ => .ok ⟨("h")⟩)
    (Or.inl rfl) (by decide)

/-- C6: if governance policy requires balance monitoring (the monitored-token
set is non-empty) but the Balance Snapshot Provider returned no data at all
(an empty mapping), `send_ethereum_claims` fails outright with the balances
error before building any claim — the result is the error uniformly in the
events and the dispatcher; if the monitored set is empty, the provider result
is not consulted at all (the assembly phase is the same function of the other
inputs for any two provider results) and the balances error never occurs. -/
theorem C6_monitoring_required_but_unavailable :
    (∀ (m : String) (ms : List String)
        (deposits withdraws erc20_deploys logic_calls valsets : List EthEvent)
        (orch : String) (send_message : List Msg → Except CosmosGrpcError TxResponse),
      send_ethereum_claims (.ok (m :: ms)) (.ok []) deposits withdraws erc20_deploys
          logic_calls valsets orch send_message =
        .failed (.EthereumRestError (.BadResponse
          ("Could not obtain historical Gravity.sol Eth balances to report in claims")))) ∧
    (∀ (collected collected' : Except GravityError (List (Nat × List Erc20Token)))
        (deposits withdraws erc20_deploys logic_calls valsets : List EthEvent)
        (orch : String),
      claims_plan (.ok []) collected deposits withdraws erc20_deploys logic_calls
          valsets orch =
        claims_plan (.ok []) collected' deposits withdraws erc20_deploys logic_calls
          valsets orch) ∧
    (∀ (collected : Except GravityError (List (Nat × List Erc20Token)))
        (deposits withdraws erc20_deploys logic_calls valsets : List EthEvent)
        (orch : String),
      claims_plan (.ok []) collected deposits withdraws erc20_deploys logic_calls
          valsets orch ≠
        .failed (.EthereumRestError (.BadResponse
          ("Could not obtain historical Gravity.sol Eth balances to report in claims")))) := by
  refine ⟨?_, ?_, ?_⟩
  · intro m ms deposits withdraws erc20_deploys logic_calls valsets orch send_message
    unfold send_ethereum_claims
    rw [claims_plan_monitored_empty_snapshot]
  · intro collected collected' deposits withdraws erc20_deploys logic_calls valsets orch
    rw [claims_plan_no_monitor, claims_plan_no_monitor]
  · intro collected deposits withdraws erc20_deploys logic_calls valsets orch
    rw [claims_plan_no_monitor]
    split
    · simp
    · split <;> simp

/-! ### Helper lemmas about the balance scan of `send_to_eth` -/

theorem scan_balances_not_found (amount fee : Coin) (balances : List Coin)
    (hnone : ∀ b ∈ balances, b.denom ≠ amount.denom) :
    ∀ found, scan_balances amount fee balances found = .ok found := by
  induction balances with
  | nil => intro found; rfl
  | cons b rest ih =>
    intro found
    have hb : b.denom ≠ amount.denom := hnone b (List.mem_cons_self _ _)
    simp only [scan_balances, if_neg hb]
    exact ih (fun x hx => hnone x (List.mem_cons_of_mem _ hx)) found

theorem scan_balances_insufficient (amount fee : Coin) :
    ∀ (balances : List Coin) (found : Bool),
      (∃ b ∈ balances, b.denom = amount.denom ∧
        b.amount < amount.amount + fee.amount * 2) →
      ∃ s, scan_balances amount fee balances found = .error (.BadInput s) := by
  intro balances
  induction balances with
  | nil =>
    intro found hbad
    simp at hbad
  | cons b rest ih =>
    intro found hbad
    by_cases hbd : b.denom = amount.denom
    · by_cases hba : b.amount < amount.amount + fee.amount * 2
      · exact ⟨_, by rw [scan_balances, if_pos hbd, if_pos hba]⟩
      · rcases hbad with ⟨c, hc, hcd, hcl⟩
        rcases List.mem_cons.mp hc with hcb | hcm
        · subst hcb
          exact absurd hcl hba
        · rw [scan_balances, if_pos hbd, if_neg hba]
          exact ih true ⟨c, hcm, hcd, hcl⟩
    · rcases hbad with ⟨c, hc, hcd, hcl⟩
      rcases List.mem_cons.mp hc with hcb | hcm
      · subst hcb
        exact absurd hcd hbd
      · rw [scan_balances, if_neg hbd]
        exact ih found ⟨c, hcm, hcd, hcl⟩

theorem scan_balances_reject (amount fee : Coin) (balances : List Coin)
    (hbal : (∀ b ∈ balances, b.denom ≠ amount.denom) ∨
      (∃ b ∈ balances, b.denom = amount.denom ∧
        b.amount < amount.amount + 2 * fee.amount)) :
    scan_balances amount fee balances false = .ok false ∨
      ∃ s, scan_balances amount fee balances false = .error (.BadInput s) := by
  rcases hbal with hnone | ⟨c, hc, hcd, hcl⟩
  · exact Or.inl (scan_balances_not_found amount fee balances hnone false)
  · exact Or.inr (scan_balances_insufficient amount fee balances false ⟨c, hc, hcd, by omega⟩)

/-- C7: for every `send_to_eth` call that passes the denomination checks, if
the sender's balance set has no entry of the amount's denomination, or has
such an entry with balance strictly below amount + 2 × (transaction fee), the
call returns a `BadInput` error — uniformly in the dispatcher, so no transfer
message is constructed or dispatched. -/
theorem C7_sufficiency_guard
    (our_address destination : String) (amount bridge_fee : Coin)
    (chain_fee : Option Coin) (fee : Coin)
    (get_fee : Nat → Nat) (balances : List Coin)
    (send_message : List Msg → Except CosmosGrpcError TxResponse)
    (hbridge : amount.denom = bridge_fee.denom)
    (hchain : match chain_fee with
      | some cf => cf.denom = amount.denom
      | none => True)
    (hbal : (∀ b ∈ balances, b.denom ≠ amount.denom) ∨
      (∃ b ∈ balances, b.denom = amount.denom ∧
        b.amount < amount.amount + 2 * fee.amount)) :
    ∃ s, send_to_eth our_address destination amount bridge_fee chain_fee fee get_fee
      balances send_message = .error (.BadInput s) := by
  rcases chain_fee with _ | cf
  · unfold send_to_eth
    rw [if_neg (fun hne => hne hbridge)]
    dsimp only
    rw [if_neg (fun hne => hne rfl)]
    rcases scan_balances_reject amount fee balances hbal with hscan | ⟨s, hscan⟩
    · refine ⟨("No balance of " ++ amount.denom ++ " to send"), ?_⟩
      rw [hscan]
      rfl
    · refine ⟨s, ?_⟩
      rw [hscan]
  · have hcf : cf.denom = amount.denom := hchain
    unfold send_to_eth
    rw [if_neg (fun hne => hne hbridge)]
    dsimp only
    rw [if_neg (fun hne => hne hcf.symm)]
    rcases scan_balances_reject amount fee balances hbal with hscan | ⟨s, hscan⟩
    · refine ⟨("No balance of " ++ amount.denom ++ " to send"), ?_⟩
      rw [hscan]
      rfl
    · refine ⟨s, ?_⟩
      rw [hscan]

/-- Witness for C7: the spec's concrete scenario — balance 100 "ugraviton",
amount 90, transaction fee 10 (needs 90 + 20 = 110) — is rejected. -/
theorem C7_sufficiency_guard_witness :
    ∃ s, send_to_eth ("addr") ("0xdest") ⟨("ugraviton"), 90⟩ ⟨("ugraviton"), 5⟩
        (some ⟨("ugraviton"), 2⟩) ⟨("ugraviton"), 10⟩ (fun _ => 1)
        [⟨("ugraviton"), 100⟩] (fun _ => .ok ⟨("h")⟩) = .error (.BadInput s) :=
  C7_sufficiency_guard ("addr") ("0xdest") ⟨("ugraviton"), 90⟩ ⟨("ugraviton"), 5⟩
    (some ⟨("ugraviton"), 2⟩) ⟨("ugraviton"), 10⟩ (fun _ => 1)
    [⟨("ugraviton"), 100⟩] (fun _ => .ok ⟨("h")⟩) (by decide) (by decide) (by decide)

/-- C8: `send_to_eth` returns `BadInput` whenever the bridge fee's
denomination differs from the amount's, and whenever a given chain fee's
denomination differs from the amount's (a derived chain fee always carries
the amount's denomination by construction); in both cases the error is the
same for every balance set and dispatcher — the rejection happens with no
balance check. -/
theorem C8_denom_guard :
    (∀ (our_address destination : String) (amount bridge_fee : Coin)
        (chain_fee : Option Coin) (fee : Coin) (get_fee : Nat → Nat),
      amount.denom ≠ bridge_fee.denom →
      ∃ s, ∀ (balances : List Coin)
          (send_message : List Msg → Except CosmosGrpcError TxResponse),
        send_to_eth our_address destination amount bridge_fee chain_fee fee get_fee
          balances send_message = .error (.BadInput s)) ∧
    (∀ (our_address destination : String) (amount bridge_fee cf fee : Coin)
        (get_fee : Nat → Nat),
      amount.denom = bridge_fee.denom → amount.denom ≠ cf.denom →
      ∃ s, ∀ (balances : List Coin)
          (send_message : List Msg → Except CosmosGrpcError TxResponse),
        send_to_eth our_address destination amount bridge_fee (some cf) fee get_fee
          balances send_message = .error (.BadInput s)) := by
  constructor
  · intro our_address destination amount bridge_fee chain_fee fee get_fee hne
    refine ⟨(amount.denom ++ " " ++ bridge_fee.denom ++
      " is an invalid denom set for SendToEth you must pay ethereum fees in the same token your sending"),
      fun balances send_message => ?_⟩
    unfold send_to_eth
    rw [if_pos hne]
  · intro our_address destination amount bridge_fee cf fee get_fee heq hne
    refine ⟨(amount.denom ++ " " ++ cf.denom ++
      " is an invalid denom set for SendToEth you must pay chain fees in the same token your sending"),
      fun balances send_message => ?_⟩
    unfold send_to_eth
    rw [if_neg (fun h => h heq)]
    dsimp only
    rw [if_pos hne]

/-- Witness for C8: the spec's concrete scenario — amount denom "ugraviton"
with bridge fee denom "uatom" — and a mismatched given chain fee, both
rejected for every balance set. -/
theorem C8_denom_guard_witness :
    (∃ s, ∀ (balances : List Coin)
        (send_message : List Msg → Except CosmosGrpcError TxResponse),
      send_to_eth ("addr") ("0xdest") ⟨("ugraviton"), 100⟩ ⟨("uatom"), 1⟩ none
        ⟨("ugraviton"), 1⟩ (fun _ => 1) balances send_message = .error (.BadInput s)) ∧
    (∃ s, ∀ (balances : List Coin)
        (send_message : List Msg → Except CosmosGrpcError TxResponse),
      send_to_eth ("addr") ("0xdest") ⟨("ugraviton"), 100⟩ ⟨("ugraviton"), 1⟩
        (some ⟨("uatom"), 1⟩) ⟨("ugraviton"), 1⟩ (fun _ => 1) balances send_message =
          .error (.BadInput s)) :=
  ⟨C8_denom_guard.1 ("addr") ("0xdest") ⟨("ugraviton"), 100⟩ ⟨("uatom"), 1⟩ none
      ⟨("ugraviton"), 1⟩ (fun _ => 1) (by decide),
    C8_denom_guard.2 ("addr") ("0xdest") ⟨("ugraviton"), 100⟩ ⟨("ugraviton"), 1⟩
      ⟨("uatom"), 1⟩ ⟨("ugraviton"), 1⟩ (fun _ => 1) (by decide) (by decide)⟩

/-! ### Helper lemmas about the confirmation loops -/

theorem valset_confirm_messages_eq_map
    (encode_valset_confirm : String → Valset → List Nat)
    (sign_ethereum_msg : List Nat → List Nat)
    (our_address our_eth_address gravity_id : String) (valsets : List Valset) :
    valset_confirm_messages encode_valset_confirm sign_ethereum_msg our_address
        our_eth_address gravity_id valsets =
      valsets.map (fun valset =>
        Msg.mk MSG_VALSET_CONFIRM_TYPE_URL (MsgBody.valsetConfirm
          { orchestrator := our_address
            eth_address := our_eth_address
            nonce := valset.nonce
            signature := bytes_to_hex_str (sign_ethereum_msg
              (encode_valset_confirm gravity_id valset)) })) := by
  induction valsets with
  | nil => rfl
  | cons valset rest ih => simp [valset_confirm_messages, ih]

theorem batch_confirm_messages_eq_map
    (encode_tx_batch_confirm : String → TransactionBatch → List Nat)
    (sign_ethereum_msg : List Nat → List Nat)
    (our_address our_eth_address gravity_id : String)
    (transaction_batches : List TransactionBatch) :
    batch_confirm_messages encode_tx_batch_confirm sign_ethereum_msg our_address
        our_eth_address gravity_id transaction_batches =
      transaction_batches.map (fun batch =>
        Msg.mk MSG_CONFIRM_BATCH_TYPE_URL (MsgBody.confirmBatch
          { token_contract := batch.token_contract
            orchestrator := our_address
            eth_signer := our_eth_address
            nonce := batch.nonce
            signature := bytes_to_hex_str (sign_ethereum_msg
              (encode_tx_batch_confirm gravity_id batch)) })) := by
  induction transaction_batches with
  | nil => rfl
  | cons batch rest ih => simp [batch_confirm_messages, ih]

theorem logic_call_confirm_messages_eq_map
    (encode_logic_call_confirm : String → LogicCall → List Nat)
    (sign_ethereum_msg : List Nat → List Nat)
    (our_address our_eth_address gravity_id : String) (logic_calls : List LogicCall) :
    logic_call_confirm_messages encode_logic_call_confirm sign_ethereum_msg our_address
        our_eth_address gravity_id logic_calls =
      logic_calls.map (fun call =>
        Msg.mk MSG_CONFIRM_LOGIC_CALL_TYPE_URL (MsgBody.confirmLogicCall
          { orchestrator := our_address
            eth_signer := our_eth_address
            signature := bytes_to_hex_str (sign_ethereum_msg
              (encode_logic_call_confirm gravity_id call))
            invalidation_id := bytes_to_hex_str call.invalidation_id
            invalidation_nonce := call.invalidation_nonce })) := by
  induction logic_calls with
  | nil => rfl
  | cons call rest ih => simp [logic_call_confirm_messages, ih]

/-- C9: each of `send_valset_confirms`, `send_batch_confirm` and
`send_logic_call_confirm` builds exactly one confirmation message per input
artifact — binding the destination-chain (orchestrator) address, the
source-chain (Ethereum) address, the hex-encoded signature over the
artifact's canonical encoding parameterized by `gravity_id`, and the
artifact's identifying fields (nonce, or invalidation id + invalidation
nonce) — and submits all resulting messages together in one dispatch call,
returning the dispatcher's result unchanged: each function equals the
dispatcher applied once to the per-artifact message list. -/
theorem C9_confirmation_messages :
    (∀ (encode_valset_confirm : String → Valset → List Nat)
        (sign_ethereum_msg : List Nat → List Nat)
        (our_address our_eth_address : String) (valsets : List Valset)
        (gravity_id : String)
        (send_message : List Msg → Except CosmosGrpcError TxResponse),
      send_valset_confirms encode_valset_confirm sign_ethereum_msg our_address
          our_eth_address valsets gravity_id send_message =
        send_message (valsets.map (fun valset =>
          Msg.mk MSG_VALSET_CONFIRM_TYPE_URL (MsgBody.valsetConfirm
            { orchestrator := our_address
              eth_address := our_eth_address
              nonce := valset.nonce
              signature := bytes_to_hex_str (sign_ethereum_msg
                (encode_valset_confirm gravity_id valset)) })))) ∧
    (∀ (encode_tx_batch_confirm : String → TransactionBatch → List Nat)
        (sign_ethereum_msg : List Nat → List Nat)
        (our_address our_eth_address : String)
        (transaction_batches : List TransactionBatch) (gravity_id : String)
        (send_message : List Msg → Except CosmosGrpcError TxResponse),
      send_batch_confirm encode_tx_batch_confirm sign_ethereum_msg our_address
          our_eth_address transaction_batches gravity_id send_message =
        send_message (transaction_batches.map (fun batch =>
          Msg.mk MSG_CONFIRM_BATCH_TYPE_URL (MsgBody.confirmBatch
            { token_contract := batch.token_contract
              orchestrator := our_address
              eth_signer := our_eth_address
              nonce := batch.nonce
              signature := bytes_to_hex_str (sign_ethereum_msg
                (encode_tx_batch_confirm gravity_id batch)) })))) ∧
    (∀ (encode_logic_call_confirm : String → LogicCall → List Nat)
        (sign_ethereum_msg : List Nat → List Nat)
        (our_address our_eth_address : String) (logic_calls : List LogicCall)
        (gravity_id : String)
        (send_message : List Msg → Except CosmosGrpcError TxResponse),
      send_logic_call_confirm encode_logic_call_confirm sign_ethereum_msg our_address
          our_eth_address logic_calls gravity_id send_message =
        send_message (logic_calls.map (fun call =>
          Msg.mk MSG_CONFIRM_LOGIC_CALL_TYPE_URL (MsgBody.confirmLogicCall
            { orchestrator := our_address
              eth_signer := our_eth_address
              signature := bytes_to_hex_str (sign_ethereum_msg
                (encode_logic_call_confirm gravity_id call))
              invalidation_id := bytes_to_hex_str call.invalidation_id
              invalidation_nonce := call.invalidation_nonce })))) := by
  refine ⟨?_, ?_, ?_⟩
  · intro enc sign our_address our_eth_address valsets gravity_id send_message
    unfold send_valset_confirms
    rw [valset_confirm_messages_eq_map]
  · intro enc sign our_address our_eth_address transaction_batches gravity_id send_message
    unfold send_batch_confirm
    rw [batch_confirm_messages_eq_map]
  · intro enc sign our_address our_eth_address logic_calls gravity_id send_message
    unfold send_logic_call_confirm
    rw [logic_call_confirm_messages_eq_map]

/-- Counterexample to C10 as stated: `execute_pending_ibc_auto_forwards` does
not return the destination chain's response — two dispatchers answering with
different successful responses give the same (unit) result. -/
theorem C10_counterexample_auto_forward_drops_response :
    (execute_pending_ibc_auto_forwards ("gravity1exec") 2 (fun _ => .ok ⟨("RESPA")⟩) =
      execute_pending_ibc_auto_forwards ("gravity1exec") 2 (fun _ => .ok ⟨("RESPB")⟩)) ∧
    TxResponse.mk ("RESPA") ≠ TxResponse.mk ("RESPB") := by
  exact ⟨rfl, by decide⟩

/-- C10 (amended): each ancillary one-shot operation builds exactly one
message from its inputs and dispatches it in a single dispatcher call;
delegate-address registration, batch-request, bad-signature-evidence
submission and transfer cancellation return the destination chain's response
or propagate its error unchanged (each equals the dispatcher applied once to
its single-message list), while auto-forward execution propagates the
dispatcher's error unchanged but discards the successful response, returning
plain (unit) success. -/
theorem C10_ancillary_single_message :
    (∀ (chain_hrp key_address : String) (to_bech32 : String → String → String)
        (delegate_eth_address delegate_cosmos_address : String)
        (send_message : List Msg → Except CosmosGrpcError TxResponse),
      set_gravity_delegate_addresses chain_hrp key_address to_bech32 delegate_eth_address
          delegate_cosmos_address send_message =
        send_message [Msg.mk MSG_SET_ORCHESTRATOR_ADDRESS_TYPE_URL
          (MsgBody.setOrchestratorAddress
            { validator := to_bech32 key_address (chain_hrp ++ "valoper")
              orchestrator := delegate_cosmos_address
              eth_address := delegate_eth_address })]) ∧
    (∀ (our_address denom : String)
        (send_message : List Msg → Except CosmosGrpcError TxResponse),
      send_request_batch our_address denom send_message =
        send_message [Msg.mk MSG_REQUEST_BATCH_TYPE_URL
          (MsgBody.requestBatch { sender := our_address, denom := denom })]) ∧
    (∀ (our_address signed_object_any : String) (signature : List Nat)
        (send_message : List Msg → Except CosmosGrpcError TxResponse),
      submit_bad_signature_evidence our_address signed_object_any signature send_message =
        send_message [Msg.mk MSG_SUBMIT_BAD_SIGNATURE_EVIDENCE_TYPE_URL
          (MsgBody.submitBadSignatureEvidence
            { subject := signed_object_any
              signature := bytes_to_hex_str signature
              sender := our_address })]) ∧
    (∀ (our_address : String) (transaction_id : Nat)
        (send_message : List Msg → Except CosmosGrpcError TxResponse),
      cancel_send_to_eth our_address transaction_id send_message =
        send_message [Msg.mk MSG_CANCEL_SEND_TO_ETH_TYPE_URL
          (MsgBody.cancelSendToEth
            { transaction_id := transaction_id, sender := our_address })]) ∧
    (∀ (cosmos_addr : String) (forwards_to_clear : Nat)
        (send_message : List Msg → Except CosmosGrpcError TxResponse),
      execute_pending_ibc_auto_forwards cosmos_addr forwards_to_clear send_message =
        match send_message [Msg.mk MSG_EXECUTE_IBC_AUTO_FORWARDS_TYPE_URL
            (MsgBody.executeIbcAutoForwards
              { forwards_to_clear := forwards_to_clear, executor := cosmos_addr })] with
        | .error e => .error e
        | .ok _ => .ok ()) :=
  ⟨fun _ _ _ _ _ _ => rfl, fun _ _ _ => rfl, fun _ _ _ _ => rfl, fun _ _ _ => rfl,
    fun _ _ _ => rfl⟩

end GravitySend
